import Mathlib

/-!
# GAMUT: a Chord DHT node (`main.go`)

A shallow embedding of the client side of the node: the connection cache and
`call`, the three maintenance steps `cp`, `fix_fingers`, `stabilize` (with
`notify`), the routed lookup `findFile`, `StoreFile`, and the start-up
validation of `main`.

Conventions of the embedding.

* The process-wide variables (`node`, `connections`, `successorAmount`) are the
  fields of one `State`, passed explicitly.  One maintenance step is run
  sequentially; the mutex sections (`node.mu`, `m`) are therefore transparent.
* The network is a parameter: `Env.dial` stands for `rpc.DialHTTP` and
  `Env.rpcCall` for `(*rpc.Client).Call`.  They act on an abstract world `W`,
  so that the same request may be answered differently at different times.
  `rpcCall` receives the current contents of the caller's `reply` variable and
  returns its contents after the call.
* `hashAddress` and `Inbetween` are declared in a file that is not part of
  `main.go`; they are fields of `Env`.
* Standard output is not modelled.  `State.sent` is a ghost log with one entry
  per invocation of `call`.
* A Go run-time panic is `none` in the functions without a loop and
  `Run.panic` in those with one; a loop that has not ended after the given
  number of iterations is `Run.outOfFuel`.
-/

set_option linter.dupNamespace false

namespace Gamut

/-! ## Data model -/

abbrev NodeAddress := String

/-- Modelled from the spec: the type `Key` is declared outside `main.go`; a key
is the identifier of a filename, kept here as an opaque string. -/
abbrev Key := String

/-- A handle of type `*rpc.Client`. -/
abbrev Client := Nat

/-- Modelled from the spec: `Args { command, address, filename, offset }`, the
fields `main.go` assigns. -/
structure Args where
  Command : String
  Address : String
  Filename : String
  Offset : Int
deriving DecidableEq, Repr

/-- Modelled from the spec: `Reply { found, forward, reply, successors, content }`,
the fields `main.go` reads. -/
structure Reply where
  Found : Bool
  Forward : String
  Reply : String
  Successors : List NodeAddress
  Content : String
deriving DecidableEq, Repr

/-- The Go zero value `Reply{}`. -/
def emptyReply : Reply := ⟨false, "", "", [], ""⟩

/-- Modelled from the spec: the struct `Node` as `main` initialises it (the
mutex `mu` is left out). -/
structure Node where
  Address : NodeAddress
  Successors : List NodeAddress
  Predecessor : NodeAddress
  FingerTable : List NodeAddress
  Bucket : List (Key × String)
deriving DecidableEq, Repr

/-- One invocation of `call`: its arguments, its boolean result and the
contents of the caller's `reply` variable afterwards. -/
structure Sent where
  address : String
  method : String
  args : Args
  ok : Bool
  reply : Reply
deriving DecidableEq, Repr

/-- The process-wide variables. -/
structure State (W : Type) where
  node : Node
  connections : String → Option Client
  successorAmount : Int
  world : W
  sent : List Sent

/-- The collaborators that `main.go` uses but does not define. -/
structure Env (W : Type) where
  dial : W → String → W × Option Client
  rpcCall : W → Client → String → Args → Reply → W × Bool × Reply
  hashAddress : NodeAddress → Nat
  Inbetween : Nat → Nat → Nat → Bool → Bool

/-- Outcome of a run that may panic or may not have ended yet. -/
inductive Run (α : Type) where
  | done (a : α)
  | panic
  | outOfFuel

/-- Modelled from the spec: `Inbetween` is not defined in `main.go`.  True iff
`x` lies strictly after `a` and before `b` going clockwise; `b` itself counts
when `inclusive` is set; when `a = b` the interval is the whole ring minus `a`. -/
def inBetweenRing (a x b : Nat) (inclusive : Bool) : Bool :=
  if a < b then (decide (a < x) && decide (x < b)) || (inclusive && decide (x = b))
  else decide (a < x) || decide (x < b) || (inclusive && decide (x = b))

/-! ## The connection cache and `call` -/

def cacheDelete (conns : String → Option Client) (address : String) : String → Option Client :=
  fun a => if a = address then none else conns a

def cacheSet (conns : String → Option Client) (address : String) (c : Client) :
    String → Option Client :=
  fun a => if a = address then some c else conns a

/-- Result of `call`: the returned boolean, the caller's `reply` variable and
the process state afterwards. -/
structure CallResult (W : Type) where
  ok : Bool
  reply : Reply
  st : State W

/-- The function `call` of `main.go`. -/
def call {W : Type} (env : Env W) (st : State W) (address method : String) (args : Args)
    (reply : Reply) : CallResult W :=
  match st.connections address with
  | some c =>
    match env.rpcCall st.world c method args reply with
    | (w, true, reply1) =>
      ⟨true, reply1, { st with world := w, sent := st.sent ++ [⟨address, method, args, true, reply1⟩] }⟩
    | (w, false, reply1) =>
      ⟨false, reply1, { st with world := w, connections := cacheDelete st.connections address,
                                sent := st.sent ++ [⟨address, method, args, false, reply1⟩] }⟩
  | none =>
    match env.dial st.world address with
    | (w, none) =>
      ⟨false, reply, { st with world := w, sent := st.sent ++ [⟨address, method, args, false, reply⟩] }⟩
    | (w, some c) =>
      match env.rpcCall w c method args reply with
      | (w1, true, reply1) =>
        ⟨true, reply1, { st with world := w1, connections := cacheSet st.connections address c,
                                 sent := st.sent ++ [⟨address, method, args, true, reply1⟩] }⟩
      | (w1, false, reply1) =>
        ⟨false, reply1, { st with world := w1, connections := cacheSet st.connections address c,
                                  sent := st.sent ++ [⟨address, method, args, false, reply1⟩] }⟩

/-! ## `cp`: check the predecessor -/

/-- The function `cp` of `main.go`. -/
def cp {W : Type} (env : Env W) (st : State W) : State W :=
  let arguments : Args := ⟨"CP", st.node.Address, "", 0⟩
  let reply : Reply := emptyReply
  if st.node.Predecessor = "" then st
  else
    let r := call env st st.node.Predecessor "Node.HandlePing" arguments reply
    if r.ok then r.st
    else { r.st with node := { r.st.node with Predecessor := "" } }

/-! ## `stabilize` and `notify` -/

/-- The function `notify` of `main.go`; `node.Successors[0]` panics on an empty
list (`none`). -/
def notify {W : Type} (env : Env W) (st : State W) : Option (State W) :=
  let arguments : Args := ⟨"Notify", st.node.Address, "", 0⟩
  match st.node.Successors with
  | [] => none
  | s0 :: _ => some (call env st s0 "Node.Notify" arguments emptyReply).st

/-- Lines 389 to 398 of `stabilize`: adopt the successor's predecessor `p`
(the field `reply.Reply` of the answer to `Get_predecessor`). -/
def adoptPredecessor {W : Type} (env : Env W) (nd : Node) (p : String) : Option Node :=
  match nd.Successors with
  | [] => none
  | s0 :: _ =>
    let addH := env.hashAddress nd.Address
    let addressH := env.hashAddress p
    let succH := env.hashAddress s0
    if env.Inbetween addH addressH succH true && decide (p ≠ "") then
      some { nd with Successors := [p] }
    else some nd

/-- Lines 405 to 412 of `stabilize`: rebuild the successor list from the reply
of `Get_successors` and cut it to `*successorAmount` entries.  The slice
expression `[:r]` panics for a negative `r`. -/
def rebuildSuccessors (nd : Node) (r : Int) (S : List NodeAddress) : Option Node :=
  match nd.Successors with
  | [] => none
  | h :: _ =>
    let l := [h] ++ S
    if (l.length : Int) > r then
      if r < 0 then none else some { nd with Successors := l.take r.toNat }
    else some { nd with Successors := l }

/-- The first request of `stabilize` (line 377), sent to `s0 = node.Successors[0]`. -/
def callGetPredecessor {W : Type} (env : Env W) (st : State W) (s0 : NodeAddress) :
    CallResult W :=
  call env st s0 "Node.Get_predecessor" ⟨"", st.node.Address, "", 0⟩ emptyReply

/-- The second request of `stabilize` (line 401), sent to `h = node.Successors[0]`. -/
def callGetSuccessors {W : Type} (env : Env W) (st : State W) (h : NodeAddress) :
    CallResult W :=
  call env st h "Node.Get_successors" ⟨"", st.node.Address, "", 0⟩ emptyReply

/-- The function `stabilize` of `main.go`; `none` is a run-time panic. -/
def stabilize {W : Type} (env : Env W) (st : State W) : Option (State W) :=
  match st.node.Successors with
  | [] => none
  | s0 :: _ =>
    let r1 := callGetPredecessor env st s0
    if !r1.ok then
      let tl := r1.st.node.Successors.tail
      some { r1.st with node := { r1.st.node with
        Successors := if tl.length = 0 then [r1.st.node.Address] else tl } }
    else
      match adoptPredecessor env r1.st.node r1.reply.Reply with
      | none => none
      | some nd2 =>
        let st2 : State W := { r1.st with node := nd2 }
        match nd2.Successors with
        | [] => none
        | h :: _ =>
          let r2 := callGetSuccessors env st2 h
          match rebuildSuccessors r2.st.node r2.st.successorAmount r2.reply.Successors with
          | none => none
          | some nd3 => notify env { r2.st with node := nd3 }

/-! ## `fix_fingers` -/

/-- The package variable `FingerTableSize`. -/
def FingerTableSize : Nat := 10

/-- The loop `for !flag` of `findFile` (lines 235 to 250).  The variable `reply`
is declared outside the loop and is passed to every request. -/
def findFileLoop {W : Type} (env : Env W) (arguments : Args) :
    Nat → State W → Reply → NodeAddress → Run (String × State W)
  | 0, _, _, _ => Run.outOfFuel
  | fuel + 1, st, reply, add =>
    let r := call env st add "Node.FindSuccessor" arguments reply
    if !r.ok then Run.done ("", r.st)
    else if r.reply.Found then Run.done (r.reply.Reply, r.st)
    else findFileLoop env arguments fuel r.st r.reply r.reply.Forward

/-- The function `findFile` of `main.go`; `args[1]` panics on a short list. -/
def findFile {W : Type} (env : Env W) (fuel : Nat) (st : State W) (args : List String) :
    Run (String × State W) :=
  match args with
  | _ :: filename :: _ =>
    findFileLoop env ⟨"", filename, "", 0⟩ fuel st emptyReply st.node.Address
  | _ => Run.panic

/-- The variables of the loop of `findFile` at the head of an iteration: the
process state, the contents of `reply` and the address `add` asked next. -/
structure LookupVars (W : Type) where
  st : State W
  reply : Reply
  add : NodeAddress

/-- The loop variables of `findFile` after `n` iterations each of which was
answered `Forward` (the request succeeded with `Found = false`); `none` when one
of these `n` requests failed or was answered `Found`.  Used only to state when
the loop ends. -/
def forwardedHops {W : Type} (env : Env W) (arguments : Args) :
    Nat → LookupVars W → Option (LookupVars W)
  | 0, v => some v
  | n + 1, v =>
    let r := call env v.st v.add "Node.FindSuccessor" arguments v.reply
    if r.ok && !r.reply.Found then forwardedHops env arguments n ⟨r.st, r.reply, r.reply.Forward⟩
    else none

/-- The function `StoreFile` of `main.go`.  `content` is what `os.ReadFile`
returns after `EncryptFile` has rewritten the file (the payload). -/
def StoreFile {W : Type} (env : Env W) (fuel : Nat) (st : State W) (args : List String)
    (content : String) : Run (State W) :=
  match args with
  | _ :: filename :: _ =>
    match findFile env fuel st args with
    | Run.done (add, st1) =>
      if add = st1.node.Address then Run.done st1
      else
        Run.done (call env st1 add "Node.Store" ⟨content, st1.node.Address, filename, 0⟩
          emptyReply).st
    | Run.panic => Run.panic
    | Run.outOfFuel => Run.outOfFuel
  | _ => Run.panic

/-- Modelled from the spec: the handler `Node.Store` is not part of `main.go`.
"`store(key, payload)`: place payload at `bucket[key]`", the key being the hash
of the filename; `StoreFile` sends the payload in the field `Command`. -/
def handleStore (hashKey : String → Key) (nd : Node) (args : Args) : Node :=
  { nd with Bucket := (hashKey args.Filename, args.Command) ::
      nd.Bucket.filter (fun kv => kv.1 != hashKey args.Filename) }

/-- Modelled from the spec: the handler `Node.GetFile` is not part of `main.go`.
"`get_file(filename)`: compute `k = hash_key(filename)`; return `bucket[k]` or a
not-found error" (`none`). -/
def handleGetFile (hashKey : String → Key) (nd : Node) (filename : String) : Option String :=
  (nd.Bucket.find? (fun kv => kv.1 == hashKey filename)).map (fun kv => kv.2)

/-! ## Start-up validation of `main` -/

/-- The command-line flags after `flag.Parse` and `strings.TrimSpace`. -/
structure Flags where
  address : String
  addressPort : Int
  joinAddress : String
  joinPort : Int
  timeStablize : Int
  timeFixFingers : Int
  timeCheckPredecessor : Int
  successorAmount : Int
  identifier : String
deriving DecidableEq, Repr

/-- The default values given to `flag.String` and `flag.Int` (lines 50 to 58). -/
def defaultFlags : Flags := ⟨"", -1, "", -1, -1, -1, -1, -1, ""⟩

/-- Lines 66 to 74 of `main`: `true` iff neither check returns, that is iff
`main` goes on to build the node and start the server. -/
def validate (f : Flags) : Bool :=
  if (f.joinAddress.length == 0 && decide (f.joinPort ≥ 0)) ||
      (decide (f.joinAddress.length > 0) && decide (f.joinPort < 0)) then false
  else if (decide (f.addressPort < 0) || decide (f.timeStablize < 1) ||
        decide (f.timeCheckPredecessor < 1) || decide (f.timeFixFingers < 1)) ||
      (decide (f.timeStablize > 60000) || decide (f.timeCheckPredecessor > 60000) ||
        decide (f.timeFixFingers > 60000)) then false
  else true

/-! ## Concrete networks for the closed examples -/

/-- A toy identifier function of ten bits: the length of the address. -/
def toyHash (a : NodeAddress) : Nat := a.length % 1024

/-- A scripted network.  The world is the list of answers still to come; every
`rpcCall` consumes one (`none`, or an exhausted script, is an RPC error that
leaves `reply` as it was; `some r` overwrites `reply` with `r`).  Dialling
succeeds or fails for every address according to `dialOk`. -/
def scriptEnv (dialOk : Bool) : Env (List (Option Reply)) where
  dial := fun w _ => (w, if dialOk then some 1 else none)
  rpcCall := fun w _ _ _ reply =>
    match w with
    | [] => ([], false, reply)
    | none :: rest => (rest, false, reply)
    | some r :: rest => (rest, true, r)
  hashAddress := toyHash
  Inbetween := inBetweenRing

/-- A node state with an empty connection cache. -/
def mkState {W : Type} (nd : Node) (r : Int) (w : W) : State W :=
  ⟨nd, fun _ => none, r, w, []⟩

/-- A node whose successor list has one entry. -/
def nodeC1 : Node := ⟨"a:1", ["b:2"], "p:9", ["f:1", "f:2"], [("k", "v")]⟩

/-- A node whose successor list has two entries. -/
def nodeC2 : Node := ⟨"a:1", ["b:2", "c:3"], "p:9", ["f:1"], []⟩

/-- An answer that carries a successor list. -/
def replySuccessors (l : List NodeAddress) : Reply := ⟨false, "", "", l, ""⟩

/-- An answer that carries one address in the field `Reply`. -/
def replyAddress (found : Bool) (a : String) : Reply := ⟨found, "", a, [], ""⟩

/-- An answer that forwards to address `a`. -/
def replyForward (a : String) : Reply := ⟨false, a, "", [], ""⟩

/-- A node whose successor `bb:22` has the same toy identifier as `cc:33`. -/
def nodeC3 : Node := ⟨"a:1", ["bb:22", "d:4"], "", [], []⟩

/-- The successor of `nodeC3` answers `cc:33` to `Get_predecessor`. -/
def stateC3 : State (List (Option Reply)) :=
  mkState nodeC3 3 [some (replyAddress false "cc:33"), some emptyReply, some emptyReply]

/-- Two successors are known; `Get_predecessor` is answered with an empty
predecessor, `Get_successors` fails, `Notify` is acknowledged. -/
def stateC9 : State (List (Option Reply)) :=
  mkState nodeC2 3 [some emptyReply, none, some emptyReply]

/-- The predecessor `p:9` of `nodeC2` does not answer. -/
def stateC4 : State (List (Option Reply)) := mkState nodeC2 3 [none]

/-- The command line `-a localhost -p 8000 -ts 1000 -tff 1000 -tcp 1000`: the
flag `-r` is not given. -/
def flagsC8 : Flags :=
  { defaultFlags with address := "localhost", addressPort := 8000, timeStablize := 1000,
                      timeFixFingers := 1000, timeCheckPredecessor := 1000 }

/-- The singleton ring that `main` creates for `flagsC8`, with three requests
that are all answered. -/
def stateC8 : State (List (Option Reply)) :=
  mkState ⟨"localhost:8000", ["localhost:8000"], "", [], []⟩ flagsC8.successorAmount
    [some emptyReply, some emptyReply, some emptyReply]

/-- An empty connection cache and a peer `b:2` that accepts the connection and
then fails the request. -/
def stateC10 : State (List (Option Reply)) := mkState nodeC1 3 [none]

/-- The value of a run that ended normally. -/
def Run.toOption {α : Type} : Run α → Option α
  | Run.done a => some a
  | Run.panic => none
  | Run.outOfFuel => none

/-- A network in which every peer can be reached and answers every request with
`Forward` to `b:2`. -/
def forwardEnv : Env Unit where
  dial := fun w _ => (w, some 1)
  rpcCall := fun w _ _ _ _ => (w, true, replyForward "b:2")
  hashAddress := toyHash
  Inbetween := inBetweenRing

/-- Twenty-five answers `Forward` followed by one answer `Found`. -/
def stateC6 : State (List (Option Reply)) :=
  mkState nodeC1 3
    (List.replicate 25 (some (replyForward "b:2")) ++ [some (replyAddress true "c:3")])

/-- The loop variables of `findFile` on `stateC6` after the twenty-five
forwarded requests. -/
def lookupC6 : LookupVars (List (Option Reply)) :=
  match forwardedHops (scriptEnv true) ⟨"", "f.txt", "", 0⟩ 25
      ⟨stateC6, emptyReply, stateC6.node.Address⟩ with
  | some v => v
  | none => ⟨stateC6, emptyReply, stateC6.node.Address⟩

/-- One answer `Forward`, then a request that fails. -/
def stateC6fail : State (List (Option Reply)) :=
  mkState nodeC1 3 [some (replyForward "b:2"), none]

/-- A singleton ring: the node `a:1` is its own successor, and answers the
lookup with `Found(a:1)`. -/
def stateC7 : State (List (Option Reply)) :=
  mkState ⟨"a:1", ["a:1"], "", [], []⟩ 3 [some (replyAddress true "a:1")]

/-- The lookup is answered `Found(b:2)` and the `Store` request is acknowledged. -/
def stateC7remote : State (List (Option Reply)) :=
  mkState nodeC1 3 [some (replyAddress true "b:2"), some emptyReply]

theorem call_node {W : Type} (env : Env W) (st : State W) (a m : String) (args : Args)
    (reply : Reply) : (call env st a m args reply).st.node = st.node := by
  unfold call
  split
  · split <;> rfl
  · split
    · rfl
    · split <;> rfl

theorem call_successorAmount {W : Type} (env : Env W) (st : State W) (a m : String)
    (args : Args) (reply : Reply) :
    (call env st a m args reply).st.successorAmount = st.successorAmount := by
  unfold call
  split
  · split <;> rfl
  · split
    · rfl
    · split <;> rfl

theorem call_sent {W : Type} (env : Env W) (st : State W) (a m : String) (args : Args)
    (reply : Reply) :
    (call env st a m args reply).st.sent =
      st.sent ++ [⟨a, m, args, (call env st a m args reply).ok,
        (call env st a m args reply).reply⟩] := by
  unfold call
  split
  · split <;> rfl
  · split
    · rfl
    · split <;> rfl

/-! ## `stabilize`: the first request fails -/

theorem stabilize_fail_eq {W : Type} (env : Env W) (st : State W)
    (h : NodeAddress) (t : List NodeAddress)
    (hs : st.node.Successors = h :: t)
    (hfail : (callGetPredecessor env st h).ok = false) :
    stabilize env st = some { (callGetPredecessor env st h).st with
      node := { st.node with Successors := if t.length = 0 then [st.node.Address] else t } } := by
  have hn : (callGetPredecessor env st h).st.node = st.node := call_node _ _ _ _ _ _
  unfold stabilize
  rw [hs]
  simp only [hfail, hn, hs, List.tail_cons]
  rfl

/-- C1: when the `Get_predecessor` request of `stabilize` to `successors[0]`
fails, `stabilize` returns normally; the successor list has lost exactly its
head, or is `[self_address]` when that left it empty, and so is never empty;
address, predecessor, finger table and bucket are unchanged; the only request
issued is that `Get_predecessor` (no `Get_successors`, no `Notify`). -/
theorem stabilize_drops_failed_successor {W : Type} (env : Env W) (st : State W)
    (h : NodeAddress) (t : List NodeAddress)
    (hs : st.node.Successors = h :: t)
    (hfail : (callGetPredecessor env st h).ok = false) :
    ∃ st', stabilize env st = some st' ∧
      st'.node.Successors = (if t = [] then [st.node.Address] else t) ∧
      st'.node.Successors ≠ [] ∧
      st'.node.Address = st.node.Address ∧
      st'.node.Predecessor = st.node.Predecessor ∧
      st'.node.FingerTable = st.node.FingerTable ∧
      st'.node.Bucket = st.node.Bucket ∧
      st'.sent = st.sent ++ [⟨h, "Node.Get_predecessor", ⟨"", st.node.Address, "", 0⟩, false,
        (callGetPredecessor env st h).reply⟩] := by
  have hsent := call_sent env st h "Node.Get_predecessor" ⟨"", st.node.Address, "", 0⟩ emptyReply
  refine ⟨_, stabilize_fail_eq env st h t hs hfail, ?_⟩
  cases t with
  | nil => simp [callGetPredecessor, hsent] at hfail ⊢; simp [hfail]
  | cons a l => simp [callGetPredecessor, hsent] at hfail ⊢; simp [hfail]

/-- C1 at a node whose only successor `b:2` does not answer: the list heals to `[a:1]`. -/
theorem stabilize_drops_failed_successor_witness :
    (callGetPredecessor (scriptEnv true) (mkState nodeC1 3 [none]) "b:2").ok = false ∧
    ∃ st', stabilize (scriptEnv true) (mkState nodeC1 3 [none]) = some st' ∧
      st'.node.Successors = (if ([] : List NodeAddress) = [] then ["a:1"] else []) ∧
      st'.node.Successors ≠ [] ∧
      st'.node.Address = "a:1" ∧
      st'.node.Predecessor = "p:9" ∧
      st'.node.FingerTable = ["f:1", "f:2"] ∧
      st'.node.Bucket = [("k", "v")] ∧
      st'.sent = [] ++ [⟨"b:2", "Node.Get_predecessor", ⟨"", "a:1", "", 0⟩, false,
        (callGetPredecessor (scriptEnv true) (mkState nodeC1 3 [none]) "b:2").reply⟩] :=
  ⟨by decide, stabilize_drops_failed_successor (scriptEnv true) (mkState nodeC1 3 [none]) "b:2" []
    rfl (by decide)⟩

/-! ## `stabilize`: the first request succeeds -/

theorem adoptPredecessor_eq {W : Type} (env : Env W) (nd : Node) (p : String)
    (s0 : NodeAddress) (t : List NodeAddress) (hs : nd.Successors = s0 :: t) :
    adoptPredecessor env nd p =
      some (if p ≠ "" ∧ env.Inbetween (env.hashAddress nd.Address) (env.hashAddress p)
                (env.hashAddress s0) true = true
            then { nd with Successors := [p] } else nd) := by
  unfold adoptPredecessor
  rw [hs]
  by_cases hp : p = "" <;>
    cases hb : env.Inbetween (env.hashAddress nd.Address) (env.hashAddress p)
      (env.hashAddress s0) true <;> simp [hp, hb]

theorem rebuildSuccessors_eq (nd : Node) (r : Int) (S : List NodeAddress)
    (h : NodeAddress) (t : List NodeAddress) (hs : nd.Successors = h :: t) (hr : 0 ≤ r) :
    rebuildSuccessors nd r S = some { nd with Successors := (h :: S).take r.toNat } := by
  unfold rebuildSuccessors
  rw [hs]
  have hnr : ¬ r < 0 := by omega
  by_cases hlen : (([h] ++ S).length : Int) > r
  · simp only [hlen, hnr, if_true, if_false]
    rfl
  · simp only [hlen, if_false]
    have : (h :: S).length ≤ r.toNat := by
      simp only [List.singleton_append] at hlen
      omega
    rw [List.take_of_length_le this]
    rfl

theorem stabilize_ok_eq {W : Type} (env : Env W) (st : State W)
    (s0 : NodeAddress) (t : List NodeAddress) (nd2 : Node) (h : NodeAddress)
    (t2 : List NodeAddress)
    (hs : st.node.Successors = s0 :: t)
    (h1 : (callGetPredecessor env st s0).ok = true)
    (had : adoptPredecessor env st.node (callGetPredecessor env st s0).reply.Reply = some nd2)
    (hh : nd2.Successors = h :: t2) :
    stabilize env st =
      match rebuildSuccessors nd2 st.successorAmount
          (callGetSuccessors env { (callGetPredecessor env st s0).st with node := nd2 }
            h).reply.Successors with
      | none => none
      | some nd3 =>
        notify env { (callGetSuccessors env
          { (callGetPredecessor env st s0).st with node := nd2 } h).st with node := nd3 } := by
  have hn : (callGetPredecessor env st s0).st.node = st.node := call_node _ _ _ _ _ _
  have ha : (callGetPredecessor env st s0).st.successorAmount = st.successorAmount :=
    call_successorAmount _ _ _ _ _ _
  unfold stabilize
  rw [hs]
  simp only [h1, hn, had, hh, Bool.not_true]
  have hn2 : (callGetSuccessors env { (callGetPredecessor env st s0).st with node := nd2 }
      h).st.node = nd2 := call_node _ _ _ _ _ _
  have ha2 : (callGetSuccessors env { (callGetPredecessor env st s0).st with node := nd2 }
      h).st.successorAmount = st.successorAmount := by
    rw [callGetSuccessors, call_successorAmount]
    exact ha
  rw [hn2, ha2]
  rfl

theorem notify_eq {W : Type} (env : Env W) (st : State W) (s0 : NodeAddress)
    (t : List NodeAddress) (hs : st.node.Successors = s0 :: t) :
    notify env st =
      some (call env st s0 "Node.Notify" ⟨"Notify", st.node.Address, "", 0⟩ emptyReply).st := by
  unfold notify
  rw [hs]

theorem take_toNat_cons (r : Int) (hr : 1 ≤ r) (h : NodeAddress) (S : List NodeAddress) :
    (h :: S).take r.toNat = h :: S.take (r.toNat - 1) := by
  obtain ⟨n, hn⟩ : ∃ n, r.toNat = n + 1 := ⟨r.toNat - 1, by omega⟩
  rw [hn]
  rfl

/-- C2: when `Get_predecessor` and `Get_successors` both succeed and
`*successorAmount = r` with `r ≥ 1`, `stabilize` returns normally and the
successor list is the first `r` elements of `[h] ++ S'`, where `h` is the head
of the list after the adoption step and `S'` the list returned by `h`; its
length is between 1 and `r`. -/
theorem stabilize_successor_list {W : Type} (env : Env W) (st : State W)
    (s0 : NodeAddress) (t : List NodeAddress) (nd2 : Node) (h : NodeAddress)
    (t2 : List NodeAddress) (r : Int)
    (hs : st.node.Successors = s0 :: t)
    (hr : 1 ≤ r) (hamount : st.successorAmount = r)
    (h1 : (callGetPredecessor env st s0).ok = true)
    (had : adoptPredecessor env st.node (callGetPredecessor env st s0).reply.Reply = some nd2)
    (hh : nd2.Successors = h :: t2)
    (_h2 : (callGetSuccessors env { (callGetPredecessor env st s0).st with node := nd2 }
      h).ok = true) :
    ∃ st', stabilize env st = some st' ∧
      st'.node.Successors = ([h] ++ (callGetSuccessors env
        { (callGetPredecessor env st s0).st with node := nd2 } h).reply.Successors).take r.toNat ∧
      1 ≤ st'.node.Successors.length ∧ (st'.node.Successors.length : Int) ≤ r := by
  have heq := stabilize_ok_eq env st s0 t nd2 h t2 hs h1 had hh
  rw [rebuildSuccessors_eq nd2 st.successorAmount _ h t2 hh (by omega)] at heq
  simp only at heq
  rw [notify_eq env _ h ((callGetSuccessors env
        { (callGetPredecessor env st s0).st with node := nd2 } h).reply.Successors.take
          (st.successorAmount.toNat - 1))
      (by simp only [take_toNat_cons st.successorAmount (by omega)])] at heq
  refine ⟨_, heq, ?_, ?_, ?_⟩
  · rw [call_node, hamount]
    rfl
  · rw [call_node]
    simp only [take_toNat_cons st.successorAmount (by omega), List.length_cons]
    omega
  · rw [call_node]
    simp only [List.length_take, hamount]
    omega

/-- C2 at a node with `r = 2` whose successor `b:2` returns three successors. -/
theorem stabilize_successor_list_witness :
    nodeC2.Successors = "b:2" :: ["c:3"] ∧ (1 : Int) ≤ 2 ∧
    (callGetPredecessor (scriptEnv true) (mkState nodeC2 2
      [some emptyReply, some (replySuccessors ["c:3", "d:4", "e:5"]), some emptyReply])
      "b:2").ok = true ∧
    ∃ st', stabilize (scriptEnv true) (mkState nodeC2 2
        [some emptyReply, some (replySuccessors ["c:3", "d:4", "e:5"]), some emptyReply])
        = some st' ∧
      st'.node.Successors = (["b:2"] ++ (callGetSuccessors (scriptEnv true)
        { (callGetPredecessor (scriptEnv true) (mkState nodeC2 2
            [some emptyReply, some (replySuccessors ["c:3", "d:4", "e:5"]), some emptyReply])
            "b:2").st with node := nodeC2 } "b:2").reply.Successors).take (2 : Int).toNat ∧
      1 ≤ st'.node.Successors.length ∧ (st'.node.Successors.length : Int) ≤ 2 :=
  ⟨rfl, by decide, by decide,
    stabilize_successor_list (scriptEnv true) (mkState nodeC2 2
      [some emptyReply, some (replySuccessors ["c:3", "d:4", "e:5"]), some emptyReply])
      "b:2" ["c:3"] nodeC2 "b:2" ["c:3"] 2 rfl (by decide) rfl (by decide) (by decide) rfl
      (by decide)⟩

/-! ## `stabilize`: the adoption test -/

theorem stabilize_ok_run {W : Type} (env : Env W) (st : State W)
    (s0 : NodeAddress) (t : List NodeAddress) (nd2 : Node) (h : NodeAddress)
    (t2 : List NodeAddress)
    (hs : st.node.Successors = s0 :: t)
    (hr : 1 ≤ st.successorAmount)
    (h1 : (callGetPredecessor env st s0).ok = true)
    (had : adoptPredecessor env st.node (callGetPredecessor env st s0).reply.Reply = some nd2)
    (hh : nd2.Successors = h :: t2) :
    ∃ st', stabilize env st = some st' ∧
      st'.node.Successors = List.take st.successorAmount.toNat
        (h :: (callGetSuccessors env
          { (callGetPredecessor env st s0).st with node := nd2 } h).reply.Successors) ∧
      (st'.sent.drop st.sent.length).map (fun e => (e.address, e.method)) =
        [(s0, "Node.Get_predecessor"), (h, "Node.Get_successors"), (h, "Node.Notify")] := by
  have heq := stabilize_ok_eq env st s0 t nd2 h t2 hs h1 had hh
  rw [rebuildSuccessors_eq nd2 st.successorAmount _ h t2 hh (by omega)] at heq
  simp only at heq
  rw [notify_eq env _ h ((callGetSuccessors env
        { (callGetPredecessor env st s0).st with node := nd2 } h).reply.Successors.take
          (st.successorAmount.toNat - 1))
      (by simp only [take_toNat_cons st.successorAmount hr])] at heq
  refine ⟨_, heq, ?_, ?_⟩
  · rw [call_node]
  · rw [call_sent]
    simp [callGetSuccessors, callGetPredecessor, call_sent]

theorem inBetweenRing_inclusive_eq (a x b : Nat) (h : x ≠ b) :
    inBetweenRing a x b true = inBetweenRing a x b false := by
  unfold inBetweenRing
  simp [h]

/-- C3 (as stated, refuted): with self `a:1` (identifier 3), successor `bb:22`
(identifier 5) and answer `cc:33` (identifier 5), `stabilize` replaces the head
by `cc:33` and sends `Get_successors` to it, although the interval test with
the right end excluded is false. -/
theorem adoption_exclusive_test_counterexample :
    (stabilize (scriptEnv true) stateC3).map
      (fun s => (s.node.Successors, s.sent.map (fun e => (e.address, e.method)))) =
      some (["cc:33"], [("bb:22", "Node.Get_predecessor"), ("cc:33", "Node.Get_successors"),
        ("cc:33", "Node.Notify")]) ∧
    ¬ (((adoptPredecessor (scriptEnv true) nodeC3 "cc:33").map
          (fun nd => nd.Successors.head?) = some (some "cc:33")) ↔
        ("cc:33" ≠ "" ∧ (scriptEnv true).Inbetween ((scriptEnv true).hashAddress "a:1")
          ((scriptEnv true).hashAddress "cc:33") ((scriptEnv true).hashAddress "bb:22")
          false = true)) := by
  decide

/-- C3 (amended): when `Get_predecessor` succeeds with answer `p` (and
`*successorAmount ≥ 1`), `stabilize` returns normally and the successor list is
changed by the adoption step iff `p` is non-empty and
`Inbetween(hash(self), hash(p), hash(successors[0]), true)` holds, the test
being made with the right end included; in that case the whole list becomes
`[p]`, otherwise it is left as it was.  `Get_successors` and `Notify` go to the
resulting head, which is also the head of the final list. -/
theorem stabilize_adopts_with_inclusive_test {W : Type} (env : Env W) (st : State W)
    (s0 : NodeAddress) (t : List NodeAddress)
    (hs : st.node.Successors = s0 :: t)
    (hr : 1 ≤ st.successorAmount)
    (h1 : (callGetPredecessor env st s0).ok = true) :
    adoptPredecessor env st.node (callGetPredecessor env st s0).reply.Reply =
      some (if (callGetPredecessor env st s0).reply.Reply ≠ "" ∧
              env.Inbetween (env.hashAddress st.node.Address)
                (env.hashAddress (callGetPredecessor env st s0).reply.Reply)
                (env.hashAddress s0) true = true
            then { st.node with Successors := [(callGetPredecessor env st s0).reply.Reply] }
            else st.node) ∧
    ∃ st', stabilize env st = some st' ∧
      st'.node.Successors.head? =
        some (if (callGetPredecessor env st s0).reply.Reply ≠ "" ∧
              env.Inbetween (env.hashAddress st.node.Address)
                (env.hashAddress (callGetPredecessor env st s0).reply.Reply)
                (env.hashAddress s0) true = true
            then (callGetPredecessor env st s0).reply.Reply else s0) ∧
      (st'.sent.drop st.sent.length).map (fun e => e.address) =
        [s0, st'.node.Successors.headD "", st'.node.Successors.headD ""] := by
  have had := adoptPredecessor_eq env st.node (callGetPredecessor env st s0).reply.Reply s0 t hs
  refine ⟨had, ?_⟩
  by_cases hc : (callGetPredecessor env st s0).reply.Reply ≠ "" ∧
      env.Inbetween (env.hashAddress st.node.Address)
        (env.hashAddress (callGetPredecessor env st s0).reply.Reply)
        (env.hashAddress s0) true = true
  · rw [if_pos hc] at had
    obtain ⟨st', hst, hnode, hsent⟩ := stabilize_ok_run env st s0 t _ _ [] hs hr h1 had rfl
    refine ⟨st', hst, ?_, ?_⟩
    · rw [hnode, if_pos hc]
      simp only [take_toNat_cons st.successorAmount hr, List.head?_cons]
    · have := congrArg (List.map Prod.fst) hsent
      simp only [List.map_map, List.map_cons, List.map_nil] at this
      rw [hnode]
      simp only [take_toNat_cons st.successorAmount hr, List.headD_cons]
      exact this
  · rw [if_neg hc] at had
    obtain ⟨st', hst, hnode, hsent⟩ := stabilize_ok_run env st s0 t _ _ t hs hr h1 had hs
    refine ⟨st', hst, ?_, ?_⟩
    · rw [hnode, if_neg hc]
      simp only [take_toNat_cons st.successorAmount hr, List.head?_cons]
    · have := congrArg (List.map Prod.fst) hsent
      simp only [List.map_map, List.map_cons, List.map_nil] at this
      rw [hnode]
      simp only [take_toNat_cons st.successorAmount hr, List.headD_cons]
      exact this

/-- C3 (amended) at `stateC3`, where the answer `cc:33` is adopted. -/
theorem stabilize_adopts_with_inclusive_test_witness :
    stateC3.node.Successors = "bb:22" :: ["d:4"] ∧ 1 ≤ stateC3.successorAmount ∧
    (callGetPredecessor (scriptEnv true) stateC3 "bb:22").ok = true ∧
    adoptPredecessor (scriptEnv true) stateC3.node
        (callGetPredecessor (scriptEnv true) stateC3 "bb:22").reply.Reply =
      some (if (callGetPredecessor (scriptEnv true) stateC3 "bb:22").reply.Reply ≠ "" ∧
              (scriptEnv true).Inbetween ((scriptEnv true).hashAddress stateC3.node.Address)
                ((scriptEnv true).hashAddress
                  (callGetPredecessor (scriptEnv true) stateC3 "bb:22").reply.Reply)
                ((scriptEnv true).hashAddress "bb:22") true = true
            then { stateC3.node with
              Successors := [(callGetPredecessor (scriptEnv true) stateC3 "bb:22").reply.Reply] }
            else stateC3.node) ∧
    ∃ st', stabilize (scriptEnv true) stateC3 = some st' ∧
      st'.node.Successors.head? =
        some (if (callGetPredecessor (scriptEnv true) stateC3 "bb:22").reply.Reply ≠ "" ∧
              (scriptEnv true).Inbetween ((scriptEnv true).hashAddress stateC3.node.Address)
                ((scriptEnv true).hashAddress
                  (callGetPredecessor (scriptEnv true) stateC3 "bb:22").reply.Reply)
                ((scriptEnv true).hashAddress "bb:22") true = true
            then (callGetPredecessor (scriptEnv true) stateC3 "bb:22").reply.Reply
            else "bb:22") ∧
      (st'.sent.drop stateC3.sent.length).map (fun e => e.address) =
        ["bb:22", st'.node.Successors.headD "", st'.node.Successors.headD ""] :=
  ⟨rfl, by decide, by decide,
    stabilize_adopts_with_inclusive_test (scriptEnv true) stateC3 "bb:22" ["d:4"] rfl
      (by decide) (by decide)⟩

/-! ## `stabilize`: the second request fails -/

/-- C9 (the code at the failing input): the successor list is `[b:2, c:3]`,
`Get_predecessor` succeeds with an empty predecessor, so that the list is still
`[b:2, c:3]` when `Get_successors` is sent; that request fails, and `stabilize`
leaves the list `[b:2]`, having also sent `Notify`. -/
theorem stabilize_failed_get_successors_truncates :
    stateC9.node.Successors = ["b:2", "c:3"] ∧
    (callGetPredecessor (scriptEnv true) stateC9 "b:2").ok = true ∧
    adoptPredecessor (scriptEnv true) stateC9.node
      (callGetPredecessor (scriptEnv true) stateC9 "b:2").reply.Reply = some stateC9.node ∧
    (callGetSuccessors (scriptEnv true) (callGetPredecessor (scriptEnv true) stateC9 "b:2").st
      "b:2").ok = false ∧
    (stabilize (scriptEnv true) stateC9).map
        (fun s => (s.node.Successors, s.sent.map (fun e => (e.method, e.ok)))) =
      some (["b:2"], [("Node.Get_predecessor", true), ("Node.Get_successors", false),
        ("Node.Notify", true)]) := by
  decide

/-! ## `cp` -/

/-- C4: `cp` issues no request and changes nothing when the predecessor is
empty; otherwise it issues exactly one request, `Node.HandlePing` to the
predecessor, after which the predecessor is empty if the request failed and
unchanged if it succeeded; address, successors, finger table and bucket are
unchanged in every case. -/
theorem cp_pings_predecessor {W : Type} (env : Env W) (st : State W) :
    (st.node.Predecessor = "" → cp env st = st) ∧
    (st.node.Predecessor ≠ "" →
      (cp env st).sent = st.sent ++ [⟨st.node.Predecessor, "Node.HandlePing",
        ⟨"CP", st.node.Address, "", 0⟩,
        (call env st st.node.Predecessor "Node.HandlePing" ⟨"CP", st.node.Address, "", 0⟩
          emptyReply).ok,
        (call env st st.node.Predecessor "Node.HandlePing" ⟨"CP", st.node.Address, "", 0⟩
          emptyReply).reply⟩] ∧
      ((call env st st.node.Predecessor "Node.HandlePing" ⟨"CP", st.node.Address, "", 0⟩
          emptyReply).ok = false → (cp env st).node.Predecessor = "") ∧
      ((call env st st.node.Predecessor "Node.HandlePing" ⟨"CP", st.node.Address, "", 0⟩
          emptyReply).ok = true → (cp env st).node.Predecessor = st.node.Predecessor)) ∧
    (cp env st).node.Address = st.node.Address ∧
    (cp env st).node.Successors = st.node.Successors ∧
    (cp env st).node.FingerTable = st.node.FingerTable ∧
    (cp env st).node.Bucket = st.node.Bucket := by
  by_cases hp : st.node.Predecessor = ""
  · simp [cp, hp]
  · cases hok : (call env st st.node.Predecessor "Node.HandlePing"
        ⟨"CP", st.node.Address, "", 0⟩ emptyReply).ok <;>
      simp [cp, hp, hok, call_node, call_sent]

/-- C4 at a node whose predecessor `p:9` does not answer, and at a node without predecessor. -/
theorem cp_pings_predecessor_witness :
    (stateC4.node.Predecessor ≠ "" ∧
      (call (scriptEnv true) stateC4 "p:9" "Node.HandlePing" ⟨"CP", "a:1", "", 0⟩
        emptyReply).ok = false ∧
      (cp (scriptEnv true) stateC4).node.Predecessor = "" ∧
      (cp (scriptEnv true) stateC4).sent =
        [⟨"p:9", "Node.HandlePing", ⟨"CP", "a:1", "", 0⟩, false, emptyReply⟩]) ∧
    ((mkState nodeC3 3 ([] : List (Option Reply))).node.Predecessor = "" ∧
      cp (scriptEnv true) (mkState nodeC3 3 []) = mkState nodeC3 3 []) :=
  ⟨⟨by decide, by decide,
    ((cp_pings_predecessor (scriptEnv true) stateC4).2.1 (by decide)).2.1 (by decide),
    ((cp_pings_predecessor (scriptEnv true) stateC4).2.1 (by decide)).1⟩,
   ⟨rfl, (cp_pings_predecessor (scriptEnv true) (mkState nodeC3 3 [])).1 rfl⟩⟩

/-! ## The connection cache -/

theorem call_cache_frame {W : Type} (env : Env W) (st : State W) (a m : String) (args : Args)
    (reply : Reply) (b : String) (hb : b ≠ a) :
    (call env st a m args reply).st.connections b = st.connections b := by
  unfold call
  split
  · split
    · rfl
    · simp [cacheDelete, hb]
  · split
    · rfl
    · split <;> simp [cacheSet, hb]

theorem call_cache_ok {W : Type} (env : Env W) (st : State W) (a m : String) (args : Args)
    (reply : Reply) (hok : (call env st a m args reply).ok = true) :
    (call env st a m args reply).st.connections a ≠ none := by
  unfold call at hok ⊢
  split
  · rename_i c hc
    split
    · simp [hc]
    · rename_i heq
      simp [hc, heq] at hok
  · rename_i hc
    split
    · rename_i heq
      simp [hc, heq] at hok
    · split <;> simp [cacheSet]

theorem call_cache_cached_error {W : Type} (env : Env W) (st : State W) (a m : String)
    (args : Args) (reply : Reply) (hc : st.connections a ≠ none)
    (hok : (call env st a m args reply).ok = false) :
    (call env st a m args reply).st.connections a = none := by
  unfold call at hok ⊢
  split
  · rename_i c hc1
    split
    · rename_i heq
      simp [hc1, heq] at hok
    · simp [cacheDelete]
  · rename_i hc1
    exact absurd hc1 hc

theorem call_cache_dial_error {W : Type} (env : Env W) (st : State W) (a m : String)
    (args : Args) (reply : Reply) (hc : st.connections a = none)
    (hd : (env.dial st.world a).2 = none) :
    (call env st a m args reply).ok = false ∧
      (call env st a m args reply).st.connections a = none := by
  unfold call
  split
  · rename_i c hc1
    rw [hc] at hc1
    cases hc1
  · split
    · exact ⟨rfl, hc⟩
    · rename_i heq
      rw [heq] at hd
      cases hd

/-- C10 (the code at the failing input): the cache is empty, the peer `b:2`
accepts the connection and the request then fails; `call` returns `false` and
the cache holds the freshly dialled entry for `b:2`. -/
theorem call_fresh_dial_error_keeps_entry :
    stateC10.connections "b:2" = none ∧
    (call (scriptEnv true) stateC10 "b:2" "Node.HandlePing" ⟨"CP", "a:1", "", 0⟩
      emptyReply).ok = false ∧
    (call (scriptEnv true) stateC10 "b:2" "Node.HandlePing" ⟨"CP", "a:1", "", 0⟩
      emptyReply).st.connections "b:2" = some 1 := by
  decide

/-! ## Start-up validation -/

theorem validate_sound (f : Flags) (h : validate f = true) :
    0 ≤ f.addressPort ∧
    (1 ≤ f.timeStablize ∧ f.timeStablize ≤ 60000) ∧
    (1 ≤ f.timeFixFingers ∧ f.timeFixFingers ≤ 60000) ∧
    (1 ≤ f.timeCheckPredecessor ∧ f.timeCheckPredecessor ≤ 60000) ∧
    (f.joinAddress.length = 0 ↔ f.joinPort < 0) := by
  unfold validate at h
  split at h
  · cases h
  · split at h
    · cases h
    · rename_i h1 h2
      simp only [Bool.or_eq_true, Bool.and_eq_true, decide_eq_true_eq, beq_iff_eq,
        not_or, not_and, not_lt, not_le] at h1 h2
      obtain ⟨ha, hb⟩ := h1
      obtain ⟨⟨⟨⟨hp, hts⟩, htcp⟩, htff⟩, ⟨hts2, htcp2⟩, htff2⟩ := h2
      refine ⟨hp, ⟨?_, ?_⟩, ⟨?_, ?_⟩, ⟨?_, ?_⟩, ?_, ?_⟩
      · omega
      · omega
      · omega
      · omega
      · omega
      · omega
      · intro h0
        have := ha h0
        omega
      · intro hj
        by_contra hne
        have := hb (Nat.pos_of_ne_zero hne)
        omega

/-- C8 (the code at the failing input): the command line
`-a localhost -p 8000 -ts 1000 -tff 1000 -tcp 1000` passes both checks of
`main` although the successor-list length keeps its default `-1`; with that
value the first `stabilize` whose requests are answered panics. -/
theorem validate_accepts_missing_successor_amount :
    validate flagsC8 = true ∧ flagsC8.successorAmount = -1 ∧
    ¬ (0 < flagsC8.successorAmount) ∧
    (stabilize (scriptEnv true) stateC8).isNone = true := by
  decide

/-! ## `findFile` -/

theorem findFileLoop_spec {W : Type} (env : Env W) (arguments : Args) :
    ∀ (fuel : Nat) (st : State W) (reply : Reply) (add : NodeAddress) (res : String)
      (st' : State W),
      findFileLoop env arguments fuel st reply add = Run.done (res, st') →
      st'.node = st.node ∧
      ∃ pre last, st'.sent = st.sent ++ pre ++ [last] ∧ pre.length + 1 ≤ fuel ∧
        (∀ e ∈ pre ++ [last], e.method = "Node.FindSuccessor" ∧ e.args = arguments) ∧
        (∀ e ∈ pre, e.ok = true ∧ e.reply.Found = false) ∧
        ((last.ok = false ∧ res = "") ∨
          (last.ok = true ∧ last.reply.Found = true ∧ res = last.reply.Reply)) := by
  intro fuel
  induction fuel with
  | zero =>
    intro st reply add res st' h
    simp [findFileLoop] at h
  | succ n ih =>
    intro st reply add res st' h
    unfold findFileLoop at h
    have hn := call_node env st add "Node.FindSuccessor" arguments reply
    have hsent := call_sent env st add "Node.FindSuccessor" arguments reply
    cases hok : (call env st add "Node.FindSuccessor" arguments reply).ok
    · simp only [hok, Bool.not_false, if_true, Run.done.injEq, Prod.mk.injEq] at h
      obtain ⟨hres, hst⟩ := h
      subst hst
      refine ⟨hn, [], (⟨add, "Node.FindSuccessor", arguments,
        (call env st add "Node.FindSuccessor" arguments reply).ok,
        (call env st add "Node.FindSuccessor" arguments reply).reply⟩ : Sent), ?_, ?_, ?_, ?_, ?_⟩
      · rw [hsent, List.append_nil]
      · simp
      · intro e he
        simp at he
        subst he
        exact ⟨rfl, rfl⟩
      · intro e he
        cases he
      · left
        exact ⟨hok, hres.symm⟩
    · simp only [hok, Bool.not_true, Bool.false_eq_true, if_false] at h
      cases hf : (call env st add "Node.FindSuccessor" arguments reply).reply.Found
      · simp only [hf, Bool.false_eq_true, if_false] at h
        obtain ⟨hnode, pre, last, hs, hlen, hall, hpre, hlast⟩ := ih _ _ _ _ _ h
        refine ⟨hnode.trans hn, (⟨add, "Node.FindSuccessor", arguments,
        (call env st add "Node.FindSuccessor" arguments reply).ok,
        (call env st add "Node.FindSuccessor" arguments reply).reply⟩ : Sent) :: pre, last, ?_, ?_, ?_, ?_, hlast⟩
        · rw [hs, hsent]
          simp
        · simp
          omega
        · intro e he
          simp only [List.cons_append, List.mem_cons] at he
          rcases he with he | he
          · subst he
            exact ⟨rfl, rfl⟩
          · exact hall e he
        · intro e he
          simp only [List.mem_cons] at he
          rcases he with he | he
          · subst he
            exact ⟨hok, hf⟩
          · exact hpre e he
      · simp only [hf, if_true, Run.done.injEq, Prod.mk.injEq] at h
        obtain ⟨hres, hst⟩ := h
        subst hst
        refine ⟨hn, [], (⟨add, "Node.FindSuccessor", arguments,
        (call env st add "Node.FindSuccessor" arguments reply).ok,
        (call env st add "Node.FindSuccessor" arguments reply).reply⟩ : Sent), ?_, ?_, ?_, ?_, ?_⟩
        · rw [hsent, List.append_nil]
        · simp
        · intro e he
          simp at he
          subst he
          exact ⟨rfl, rfl⟩
        · intro e he
          cases he
        · right
          exact ⟨hok, hf, hres.symm⟩

theorem call_ok_of_always {W : Type} (env : Env W)
    (hrpc : ∀ w c m a r, (env.rpcCall w c m a r).2.1 = true ∧
      (env.rpcCall w c m a r).2.2.Found = false)
    (hdial : ∀ w a, (env.dial w a).2 ≠ none)
    (st : State W) (a m : String) (args : Args) (reply : Reply) :
    (call env st a m args reply).ok = true ∧
      (call env st a m args reply).reply.Found = false := by
  unfold call
  split
  · rename_i c hc
    have := hrpc st.world c m args reply
    split
    · rename_i heq
      rw [heq] at this
      exact ⟨rfl, this.2⟩
    · rename_i heq
      rw [heq] at this
      simp at this
  · split
    · rename_i heq
      have := hdial st.world a
      rw [heq] at this
      simp at this
    · rename_i w c heq
      have := hrpc w c m args reply
      split
      · rename_i heq2
        rw [heq2] at this
        exact ⟨rfl, this.2⟩
      · rename_i heq2
        rw [heq2] at this
        simp at this

theorem findFileLoop_forever {W : Type} (env : Env W) (arguments : Args)
    (hrpc : ∀ w c m a r, (env.rpcCall w c m a r).2.1 = true ∧
      (env.rpcCall w c m a r).2.2.Found = false)
    (hdial : ∀ w a, (env.dial w a).2 ≠ none) :
    ∀ (fuel : Nat) (st : State W) (reply : Reply) (add : NodeAddress),
      findFileLoop env arguments fuel st reply add = Run.outOfFuel := by
  intro fuel
  induction fuel with
  | zero => intro st reply add; rfl
  | succ n ih =>
    intro st reply add
    unfold findFileLoop
    have := call_ok_of_always env hrpc hdial st add "Node.FindSuccessor" arguments reply
    simp only [this.1, this.2, Bool.not_true, Bool.false_eq_true, if_false]
    exact ih _ _ _

theorem findFileLoop_mono {W : Type} (env : Env W) (arguments : Args) :
    ∀ (fuel : Nat) (st : State W) (reply : Reply) (add : NodeAddress)
      (out : String × State W),
      findFileLoop env arguments fuel st reply add = Run.done out →
      ∀ more, findFileLoop env arguments (fuel + more) st reply add = Run.done out := by
  intro fuel
  induction fuel with
  | zero =>
    intro st reply add out h
    simp [findFileLoop] at h
  | succ n ih =>
    intro st reply add out h more
    rw [Nat.add_right_comm]
    unfold findFileLoop at h ⊢
    cases hok : (call env st add "Node.FindSuccessor" arguments reply).ok
    · simpa [hok] using h
    · cases hf : (call env st add "Node.FindSuccessor" arguments reply).reply.Found
      · simp only [hok, hf, Bool.not_true, Bool.false_eq_true, if_false] at h ⊢
        exact ih _ _ _ _ h more
      · simpa [hok, hf] using h

set_option maxRecDepth 100000 in
/-- C6 (as stated, refuted): against twenty-five answers `Forward` followed by
one answer `Found`, `findFile` issues 26 `FindSuccessor` requests, more than
`2 * FingerTableSize = 20`, and returns the address found. -/
theorem findFile_exceeds_twenty_calls :
    (Run.toOption (findFile (scriptEnv true) 26 stateC6 ["LookUp", "f.txt"])).map
        (fun x => (x.1, x.2.sent.length,
          x.2.sent.all (fun e => e.method == "Node.FindSuccessor" && e.ok))) =
      some ("c:3", 26, true) ∧
    2 * FingerTableSize < 26 := by
  decide

theorem findFileLoop_returns {W : Type} (env : Env W) (arguments : Args) :
    ∀ (n : Nat) (v v' : LookupVars W),
      forwardedHops env arguments n v = some v' →
      ((call env v'.st v'.add "Node.FindSuccessor" arguments v'.reply).ok = false ∨
        (call env v'.st v'.add "Node.FindSuccessor" arguments v'.reply).reply.Found = true) →
      ∀ more, findFileLoop env arguments (n + 1 + more) v.st v.reply v.add =
        Run.done
          (if (call env v'.st v'.add "Node.FindSuccessor" arguments v'.reply).ok
            then (call env v'.st v'.add "Node.FindSuccessor" arguments v'.reply).reply.Reply
            else "",
           (call env v'.st v'.add "Node.FindSuccessor" arguments v'.reply).st) := by
  intro n
  induction n with
  | zero =>
    intro v v' hv hend more
    simp only [forwardedHops, Option.some.injEq] at hv
    subst hv
    have hfuel : 0 + 1 + more = more + 1 := by omega
    rw [hfuel]
    unfold findFileLoop
    cases hok : (call env v.st v.add "Node.FindSuccessor" arguments v.reply).ok
    · simp [hok]
    · rw [hok] at hend
      rcases hend with hend | hend
      · cases hend
      · simp [hok, hend]
  | succ n ih =>
    intro v v' hv hend more
    unfold forwardedHops at hv
    cases hok : (call env v.st v.add "Node.FindSuccessor" arguments v.reply).ok
    · simp [hok] at hv
    · cases hf : (call env v.st v.add "Node.FindSuccessor" arguments v.reply).reply.Found
      · simp only [hok, hf, Bool.not_false, Bool.and_self, if_true] at hv
        have hfuel : n + 1 + 1 + more = (n + 1 + more) + 1 := by omega
        rw [hfuel]
        unfold findFileLoop
        simp only [hok, hf, Bool.not_true, Bool.false_eq_true, if_false]
        exact ih _ _ hv hend more
      · simp [hok, hf] at hv

theorem findFileLoop_still_forwarded {W : Type} (env : Env W) (arguments : Args) :
    ∀ (n : Nat) (v v' : LookupVars W),
      forwardedHops env arguments n v = some v' →
      findFileLoop env arguments n v.st v.reply v.add = Run.outOfFuel := by
  intro n
  induction n with
  | zero =>
    intro v v' _
    rfl
  | succ n ih =>
    intro v v' hv
    unfold forwardedHops at hv
    cases hok : (call env v.st v.add "Node.FindSuccessor" arguments v.reply).ok
    · simp [hok] at hv
    · cases hf : (call env v.st v.add "Node.FindSuccessor" arguments v.reply).reply.Found
      · simp only [hok, hf, Bool.not_false, Bool.and_self, if_true] at hv
        unfold findFileLoop
        simp only [hok, hf, Bool.not_true, Bool.false_eq_true, if_false]
        exact ih _ _ hv
      · simp [hok, hf] at hv

/-- C6 (amended): the lookup loop of `findFile` has no bound on its iterations.
It issues `FindSuccessor` requests, all with `Address = filename`, until the
first request that fails or is answered `Found`.  It does return then: when the
first `n` requests are answered `Forward` and the next one fails or is answered
`Found`, `findFile` returns after these `n + 1` requests (for every fuel of at
least `n + 1`), with the empty string in the first case and the address found
in the second.  Whenever it returns, every earlier request was answered
`Forward`, the result is as just said, and the node (ring state) is unchanged.
As long as the requests are answered `Forward` it has not returned: after `n`
such answers `n` iterations were not enough, and against a network that
answers `Forward` for ever no number of iterations is. -/
theorem findFile_runs_until_found_or_failure {W : Type} (env : Env W) (st : State W)
    (cmd f : String) (rest : List String) :
    (∀ fuel res st', findFile env fuel st (cmd :: f :: rest) = Run.done (res, st') →
      st'.node = st.node ∧
      (∀ more, findFile env (fuel + more) st (cmd :: f :: rest) = Run.done (res, st')) ∧
      ∃ pre last, st'.sent = st.sent ++ pre ++ [last] ∧ pre.length + 1 ≤ fuel ∧
        (∀ e ∈ pre ++ [last], e.method = "Node.FindSuccessor" ∧ e.args = ⟨"", f, "", 0⟩) ∧
        (∀ e ∈ pre, e.ok = true ∧ e.reply.Found = false) ∧
        ((last.ok = false ∧ res = "") ∨
          (last.ok = true ∧ last.reply.Found = true ∧ res = last.reply.Reply))) ∧
    (∀ n v, forwardedHops env ⟨"", f, "", 0⟩ n ⟨st, emptyReply, st.node.Address⟩ = some v →
      ((call env v.st v.add "Node.FindSuccessor" ⟨"", f, "", 0⟩ v.reply).ok = false ∨
        (call env v.st v.add "Node.FindSuccessor" ⟨"", f, "", 0⟩ v.reply).reply.Found = true) →
      ∀ more, findFile env (n + 1 + more) st (cmd :: f :: rest) =
        Run.done
          (if (call env v.st v.add "Node.FindSuccessor" ⟨"", f, "", 0⟩ v.reply).ok
            then (call env v.st v.add "Node.FindSuccessor" ⟨"", f, "", 0⟩ v.reply).reply.Reply
            else "",
           (call env v.st v.add "Node.FindSuccessor" ⟨"", f, "", 0⟩ v.reply).st)) ∧
    (∀ n v, forwardedHops env ⟨"", f, "", 0⟩ n ⟨st, emptyReply, st.node.Address⟩ = some v →
      findFile env n st (cmd :: f :: rest) = Run.outOfFuel) ∧
    ((∀ w c m a r, (env.rpcCall w c m a r).2.1 = true ∧
        (env.rpcCall w c m a r).2.2.Found = false) →
      (∀ w a, (env.dial w a).2 ≠ none) →
      ∀ fuel, findFile env fuel st (cmd :: f :: rest) = Run.outOfFuel) := by
  refine ⟨?_, ?_, ?_, ?_⟩
  · intro fuel res st' h
    unfold findFile at h
    obtain ⟨hnode, hrest⟩ := findFileLoop_spec env _ fuel st _ _ res st' h
    refine ⟨hnode, ?_, hrest⟩
    intro more
    unfold findFile
    exact findFileLoop_mono env _ fuel st _ _ _ h more
  · intro n v hv hend more
    unfold findFile
    exact findFileLoop_returns env _ n ⟨st, emptyReply, st.node.Address⟩ v hv hend more
  · intro n v hv
    unfold findFile
    exact findFileLoop_still_forwarded env _ n ⟨st, emptyReply, st.node.Address⟩ v hv
  · intro hrpc hdial fuel
    unfold findFile
    exact findFileLoop_forever env _ hrpc hdial fuel st _ _

set_option maxRecDepth 100000 in
/-- C6 (amended) at a lookup whose second request fails, at a lookup that is
found after twenty-five forwards, and at a network that forwards for ever. -/
theorem findFile_runs_until_found_or_failure_witness :
    (findFile (scriptEnv true) 2 stateC6fail ["LookUp", "f.txt"] =
        Run.done ("", (call (scriptEnv true)
          (call (scriptEnv true) stateC6fail "a:1" "Node.FindSuccessor" ⟨"", "f.txt", "", 0⟩
            emptyReply).st
          "b:2" "Node.FindSuccessor" ⟨"", "f.txt", "", 0⟩ (replyForward "b:2")).st) ∧
      (call (scriptEnv true)
          (call (scriptEnv true) stateC6fail "a:1" "Node.FindSuccessor" ⟨"", "f.txt", "", 0⟩
            emptyReply).st
          "b:2" "Node.FindSuccessor" ⟨"", "f.txt", "", 0⟩ (replyForward "b:2")).st.node =
        stateC6fail.node) ∧
    (forwardedHops (scriptEnv true) ⟨"", "f.txt", "", 0⟩ 25
        ⟨stateC6, emptyReply, stateC6.node.Address⟩ = some lookupC6 ∧
      (call (scriptEnv true) lookupC6.st lookupC6.add "Node.FindSuccessor"
        ⟨"", "f.txt", "", 0⟩ lookupC6.reply).reply.Found = true ∧
      findFile (scriptEnv true) (25 + 1 + 0) stateC6 ["LookUp", "f.txt"] =
        Run.done
          (if (call (scriptEnv true) lookupC6.st lookupC6.add "Node.FindSuccessor"
                ⟨"", "f.txt", "", 0⟩ lookupC6.reply).ok
            then (call (scriptEnv true) lookupC6.st lookupC6.add "Node.FindSuccessor"
                ⟨"", "f.txt", "", 0⟩ lookupC6.reply).reply.Reply
            else "",
           (call (scriptEnv true) lookupC6.st lookupC6.add "Node.FindSuccessor"
                ⟨"", "f.txt", "", 0⟩ lookupC6.reply).st) ∧
      (if (call (scriptEnv true) lookupC6.st lookupC6.add "Node.FindSuccessor"
                ⟨"", "f.txt", "", 0⟩ lookupC6.reply).ok
            then (call (scriptEnv true) lookupC6.st lookupC6.add "Node.FindSuccessor"
                ⟨"", "f.txt", "", 0⟩ lookupC6.reply).reply.Reply
            else "") = "c:3" ∧
      findFile (scriptEnv true) 25 stateC6 ["LookUp", "f.txt"] = Run.outOfFuel) ∧
    findFile forwardEnv 1000 (mkState nodeC1 3 ()) ["LookUp", "f.txt"] = Run.outOfFuel :=
  ⟨⟨rfl, ((findFile_runs_until_found_or_failure (scriptEnv true) stateC6fail "LookUp" "f.txt"
      []).1 2 _ _ rfl).1⟩,
   ⟨rfl, by decide,
    (findFile_runs_until_found_or_failure (scriptEnv true) stateC6 "LookUp" "f.txt"
      []).2.1 25 lookupC6 rfl (Or.inr (by decide)) 0,
    by decide,
    (findFile_runs_until_found_or_failure (scriptEnv true) stateC6 "LookUp" "f.txt"
      []).2.2.1 25 lookupC6 rfl⟩,
   (findFile_runs_until_found_or_failure forwardEnv (mkState nodeC1 3 ()) "LookUp" "f.txt"
      []).2.2.2 (fun _ _ _ _ _ => ⟨rfl, rfl⟩) (fun _ _ => by simp [forwardEnv]) 1000⟩

/-! ## `StoreFile` -/

theorem handleGetFile_handleStore (hashKey : String → Key) (nd : Node) (args : Args) :
    handleGetFile hashKey (handleStore hashKey nd args) args.Filename = some args.Command := by
  simp [handleGetFile, handleStore]

/-- C7 (as stated, refuted): in a singleton ring the lookup of `StoreFile`
returns the node's own address `a:1`; `StoreFile` then sends no `Node.Store`
request and leaves the bucket empty, so that `get_file` at the owner does not
find the payload. -/
theorem storeFile_self_owner_stores_nothing :
    (Run.toOption (findFile (scriptEnv true) 5 stateC7 ["StoreFile", "f.txt"])).map
        (fun x => x.1) = some "a:1" ∧
    (Run.toOption (StoreFile (scriptEnv true) 5 stateC7 ["StoreFile", "f.txt"] "payload")).map
        (fun s => (s.sent.map (fun e => (e.address, e.method)), s.node.Bucket,
          handleGetFile (fun f => f) s.node "f.txt")) =
      some ([("a:1", "Node.FindSuccessor")], [], none) := by
  decide

/-- C7 (amended): let the routed lookup of `StoreFile` return the owner `o`.
If `o` is not the node's own address, `StoreFile` sends exactly one further
request, `Node.Store` to `o`, carrying the payload and the filename; applied by
the owner as the spec describes `store`, a following `get_file` for that
filename returns the same payload.  If `o` is the node's own address,
`StoreFile` returns without sending a store.  In both cases the node's own
state, the bucket included, is unchanged. -/
theorem StoreFile_stores_at_remote_owner {W : Type} (env : Env W) (fuel : Nat) (st : State W)
    (cmd f : String) (rest : List String) (content : String) (o : String) (st1 : State W)
    (hfind : findFile env fuel st (cmd :: f :: rest) = Run.done (o, st1)) :
    (o ≠ st.node.Address →
      ∃ st', StoreFile env fuel st (cmd :: f :: rest) content = Run.done st' ∧
        st'.node = st.node ∧
        ∃ ok reply, st'.sent = st1.sent ++
          [⟨o, "Node.Store", ⟨content, st.node.Address, f, 0⟩, ok, reply⟩] ∧
        ∀ (hashKey : String → Key) (owner : Node),
          handleGetFile hashKey (handleStore hashKey owner ⟨content, st.node.Address, f, 0⟩) f =
            some content) ∧
    (o = st.node.Address →
      StoreFile env fuel st (cmd :: f :: rest) content = Run.done st1 ∧
      st1.node = st.node ∧
      ∀ e ∈ st1.sent.drop st.sent.length, e.method = "Node.FindSuccessor") := by
  have hspec := hfind
  unfold findFile at hspec
  obtain ⟨hnode, pre, last, hsent, -, hall, -, -⟩ := findFileLoop_spec env _ fuel st _ _ o st1 hspec
  refine ⟨?_, ?_⟩
  · intro ho
    have ho1 : ¬ o = st1.node.Address := by rw [hnode]; exact ho
    refine ⟨(call env st1 o "Node.Store" ⟨content, st1.node.Address, f, 0⟩ emptyReply).st,
      ?_, ?_,
      (call env st1 o "Node.Store" ⟨content, st1.node.Address, f, 0⟩ emptyReply).ok,
      (call env st1 o "Node.Store" ⟨content, st1.node.Address, f, 0⟩ emptyReply).reply,
      ?_, ?_⟩
    · unfold StoreFile
      simp only [hfind, ho1, if_false]
    · rw [call_node, hnode]
    · rw [call_sent, hnode]
    · intro hashKey owner
      exact handleGetFile_handleStore hashKey owner ⟨content, st.node.Address, f, 0⟩
  · intro ho
    have ho1 : o = st1.node.Address := by rw [hnode]; exact ho
    refine ⟨?_, hnode, ?_⟩
    · unfold StoreFile
      simp only [hfind, ho1, if_true]
    · intro e he
      rw [hsent, List.append_assoc, List.drop_left] at he
      exact (hall e he).1

/-- C7 (amended) at a lookup that finds the remote owner `b:2`. -/
theorem StoreFile_stores_at_remote_owner_witness :
    findFile (scriptEnv true) 5 stateC7remote ["StoreFile", "f.txt"] =
        Run.done ("b:2", (call (scriptEnv true) stateC7remote "a:1" "Node.FindSuccessor"
          ⟨"", "f.txt", "", 0⟩ emptyReply).st) ∧
    ("b:2" ≠ stateC7remote.node.Address ∧
      ∃ st', StoreFile (scriptEnv true) 5 stateC7remote ["StoreFile", "f.txt"] "payload" =
          Run.done st' ∧
        st'.node = stateC7remote.node ∧
        ∃ ok reply, st'.sent = (call (scriptEnv true) stateC7remote "a:1" "Node.FindSuccessor"
            ⟨"", "f.txt", "", 0⟩ emptyReply).st.sent ++
          [⟨"b:2", "Node.Store", ⟨"payload", stateC7remote.node.Address, "f.txt", 0⟩, ok,
            reply⟩] ∧
        ∀ (hashKey : String → Key) (owner : Node),
          handleGetFile hashKey
            (handleStore hashKey owner ⟨"payload", stateC7remote.node.Address, "f.txt", 0⟩)
            "f.txt" = some "payload") :=
  ⟨rfl, by decide,
    (StoreFile_stores_at_remote_owner (scriptEnv true) 5 stateC7remote "StoreFile" "f.txt" []
      "payload" "b:2" _ rfl).1 (by decide)⟩

/-! ## `fix_fingers` -/

end Gamut
